import Mathlib

/-!
Verification development for the radikron program archiver.

The Go sources are embedded shallowly: pure functions become Lean
functions, the mutable `Asset` and the filesystem are threaded as
explicit state, and fallible operations return `Option` or an explicit
result type.  Times are modelled as `Int` nanoseconds (Go `time.Time` /
`time.Duration` granularity) counted from 0001-01-01 00:00:00 in the
fixed civil time zone; since every time in the program is parsed and
compared in the single fixed `Location`, civil arithmetic on one scale
is faithful for `After` / `Before` / `Add`.

Constants that the repository declares outside the provided sources
(`DatetimeLayout`, `BufferMinutes`, `OneDay`, the output layout) are
modelled from the spec and marked as such in their doc comments.
-/

namespace Radikron

/-- Nanoseconds per second (Go `time.Second`). -/
def nsPerSecond : Int := 1000000000

/-- Nanoseconds per minute (Go `time.Minute`). -/
def nsPerMinute : Int := 60 * nsPerSecond

/-- Nanoseconds per hour (Go `time.Hour`). -/
def nsPerHour : Int := 60 * nsPerMinute

/-- Modelled from the spec: the constant `OneDay` is declared outside the
provided sources; `setNextFetchTime` uses `OneDay * time.Hour` for the
"24 hours from now" fallback and `Rule.MatchWindow` uses
`time.Hour * OneDay` for the default window its own log calls "24h",
so `OneDay = 24`. -/
def OneDay : Int := 24

/-- Modelled from the spec: the constant `BufferMinutes` is declared
outside the provided sources.  The spec fixes only that it is a fixed
positive buffer in minutes ("end + fixed buffer", "now + fixed buffer
minutes"); no claim below depends on its numeric value, only on its
positivity, so it is modelled as 1. -/
def BufferMinutes : Int := 1

/-- Gregorian leap-year test. -/
def isLeapYear (y : Nat) : Bool :=
  (y % 4 = 0 && y % 100 ≠ 0) || y % 400 = 0

/-- Number of days in a month of the proleptic Gregorian calendar. -/
def daysInMonth (y m : Nat) : Nat :=
  if m = 1 then 31
  else if m = 2 then (if isLeapYear y then 29 else 28)
  else if m = 3 then 31
  else if m = 4 then 30
  else if m = 5 then 31
  else if m = 6 then 30
  else if m = 7 then 31
  else if m = 8 then 31
  else if m = 9 then 30
  else if m = 10 then 31
  else if m = 11 then 30
  else if m = 12 then 31
  else 0

/-- Days in all years strictly before year `y` (proleptic Gregorian,
year 1 is the first year). -/
def daysBeforeYear (y : Nat) : Nat :=
  (y - 1) * 365 + (y - 1) / 4 - (y - 1) / 100 + (y - 1) / 400

/-- Days in the months of year `y` strictly before month `m`. -/
def daysBeforeMonth (y m : Nat) : Nat :=
  (List.range (m - 1)).foldl (fun acc i => acc + daysInMonth y (i + 1)) 0

/-- Day number of the civil date `(y, m, d)`: 0001-01-01 is day 0. -/
def daysFromCivil (y m d : Nat) : Nat :=
  daysBeforeYear y + daysBeforeMonth y m + (d - 1)

/-- Go weekday number (Sunday = 0 .. Saturday = 6) of a civil date.
Day 0 (0001-01-01, proleptic Gregorian) is a Monday. -/
def weekdayOfCivilDay (days : Nat) : Nat :=
  (days + 1) % 7

/-- A parsed `yyyyMMddHHmmss` timestamp. -/
structure Civil where
  year : Nat
  month : Nat
  day : Nat
  hour : Nat
  minute : Nat
  second : Nat
deriving Repr, DecidableEq

/-- Accumulating decimal parser over characters; fails on a non-digit. -/
def parseDigitsAux : Nat → List Char → Option Nat
  | acc, [] => some acc
  | acc, c :: cs =>
    if c.isDigit then parseDigitsAux (acc * 10 + (c.toNat - 48)) cs
    else none

/-- Model of Go `time.ParseInLocation(DatetimeLayout, s, Location)` for the
fixed `DatetimeLayout = "20060102150405"` (yyyyMMddHHmmss) layout: exactly
14 digits with calendar-valid month, day, hour, minute and second; any
other string is a parse error (`none`). -/
def parseCivil (s : String) : Option Civil :=
  let cs := s.toList
  if cs.length = 14 then
    match parseDigitsAux 0 (cs.take 4), parseDigitsAux 0 ((cs.drop 4).take 2),
          parseDigitsAux 0 ((cs.drop 6).take 2), parseDigitsAux 0 ((cs.drop 8).take 2),
          parseDigitsAux 0 ((cs.drop 10).take 2), parseDigitsAux 0 ((cs.drop 12).take 2) with
    | some y, some mo, some d, some h, some mi, some sec =>
      if 1 ≤ mo ∧ mo ≤ 12 ∧ 1 ≤ d ∧ d ≤ daysInMonth y mo ∧ h ≤ 23 ∧ mi ≤ 59 ∧ sec ≤ 59 then
        some ⟨y, mo, d, h, mi, sec⟩
      else none
    | _, _, _, _, _, _ => none
  else none

/-- Nanoseconds from 0001-01-01 00:00:00 to a civil timestamp in the fixed
location. -/
def civilToNs (c : Civil) : Int :=
  ((daysFromCivil c.year c.month c.day * 86400
    + c.hour * 3600 + c.minute * 60 + c.second : Nat) : Int) * nsPerSecond

/-- Parse a `yyyyMMddHHmmss` string to nanoseconds on the program's single
time scale; `none` models the Go parse error. -/
def parseDatetime (s : String) : Option Int :=
  (parseCivil s).map civilToNs

/-- Go weekday number of a parsed timestamp. -/
def civilWeekday (c : Civil) : Nat :=
  weekdayOfCivilDay (daysFromCivil c.year c.month c.day)

/-- Nanoseconds of one Go duration unit, reading the unit letters from the
head of the character list (longest unit first, as Go scans the whole
non-digit run: `ms` before `m`). -/
def durUnitNs : List Char → Option (Int × List Char)
  | 'n' :: 's' :: rest => some (1, rest)
  | 'u' :: 's' :: rest => some (1000, rest)
  | 'm' :: 's' :: rest => some (1000000, rest)
  | 'm' :: rest => some (nsPerMinute, rest)
  | 's' :: rest => some (nsPerSecond, rest)
  | 'h' :: rest => some (nsPerHour, rest)
  | _ => none

/-- One `<digits><unit>` component of a Go duration string. -/
def parseNumUnit (cs : List Char) : Option (Int × List Char) :=
  let ds := cs.takeWhile (·.isDigit)
  let rest := cs.dropWhile (·.isDigit)
  if ds.isEmpty then none
  else
    match parseDigitsAux 0 ds, durUnitNs rest with
    | some n, some (u, rest2) => some ((n : Int) * u, rest2)
    | _, _ => none

/-- Fueled loop over the remaining duration components. -/
def parseDurLoop : Nat → Int → List Char → Option Int
  | _, acc, [] => some acc
  | 0, _, _ :: _ => none
  | fuel + 1, acc, cs =>
    match parseNumUnit cs with
    | some (v, rest) => parseDurLoop fuel (acc + v) rest
    | none => none

/-- Model of Go `time.ParseDuration` restricted to unsigned sequences of
integer-valued components (`"1h"`, `"90m"`, `"1h30m"`, ...), which covers
every well-formed window the configuration layer supplies; signs,
fractional components and the bare `"0"` are not modelled.  Strings with
no leading digit or an unknown unit are parse errors (`none`), matching
Go. -/
def parseGoDuration (s : String) : Option Int :=
  let cs := s.toList
  if cs.isEmpty then none else parseDurLoop cs.length 0 cs

/-- Character-list version of Go `strings.HasPrefix`. -/
def isPrefixList : List Char → List Char → Bool
  | [], _ => true
  | _ :: _, [] => false
  | a :: as, b :: bs => a = b && isPrefixList as bs

/-- Character-list version of Go `strings.Contains` (valid UTF-8 makes the
byte-level and rune-level notions agree). -/
def containsList (pat : List Char) : List Char → Bool
  | [] => isPrefixList pat []
  | l@(_ :: rest) => isPrefixList pat l || containsList pat rest

/-- Model of Go `strings.Contains s pat`. -/
def strContains (s pat : String) : Bool :=
  containsList pat.toList s.toList

/-- ASCII-lowercase a string (Go `strings.ToLower` on the 3-letter
day-of-week codes). -/
def toLowerStr (s : String) : String :=
  String.map Char.toLower s

/-- Modelled from the spec: the `Prog` struct is declared outside the
provided sources; its fields are taken from the spec's data model
("unique ID, StationID, human title, performer Pfm, free-text Info/Desc,
Tags, half-open time range Ft/To ... matched rule name/folder") and from
every field access in the provided sources. -/
structure Prog where
  ID : String
  StationID : String
  Title : String
  Pfm : String
  Info : String
  Desc : String
  Tags : List String
  Ft : String
  To : String
  RuleName : String
  RuleFolder : String
deriving Repr, DecidableEq

/-- The declarative filter of rules.go (field for field). -/
structure Rule where
  Name : String
  Title : String
  DoW : List String
  Keyword : String
  Pfm : String
  StationID : String
  Window : String
  Folder : String
deriving Repr, DecidableEq

/-- Go `Rule.HasDoW`. -/
def Rule.HasDoW (r : Rule) : Bool := r.DoW.length > 0

/-- Go `Rule.HasPfm`. -/
def Rule.HasPfm (r : Rule) : Bool := r.Pfm ≠ ""

/-- Go `Rule.HasKeyword`. -/
def Rule.HasKeyword (r : Rule) : Bool := r.Keyword ≠ ""

/-- Go `Rule.HasStationID`: empty or the `"*"` wildcard count as unset. -/
def Rule.HasStationID (r : Rule) : Bool :=
  if r.StationID = "" ∨ r.StationID = "*" then false else true

/-- Go `Rule.HasTitle`. -/
def Rule.HasTitle (r : Rule) : Bool := r.Title ≠ ""

/-- Go `Rule.HasWindow`. -/
def Rule.HasWindow (r : Rule) : Bool := r.Window ≠ ""

/-- The weekday map in `Rule.MatchDoW`; an unknown key yields Go's map
zero value, `time.Sunday = 0`. -/
def dowMap (s : String) : Nat :=
  if s = "sun" then 0
  else if s = "mon" then 1
  else if s = "tue" then 2
  else if s = "wed" then 3
  else if s = "thu" then 4
  else if s = "fri" then 5
  else if s = "sat" then 6
  else 0

/-- Go `Rule.MatchDoW`: with no DoW set, true; otherwise the weekday of the
parsed start time must equal one of the listed (lowercased) codes.  The Go
code ignores the parse error (`st, _ :=`), leaving the zero time, whose
weekday is Monday (1). -/
def Rule.MatchDoW (r : Rule) (ft : String) : Bool :=
  if ¬ r.HasDoW then true
  else
    let wd := match parseCivil ft with
      | some c => civilWeekday c
      | none => 1
    r.DoW.any (fun d => wd = dowMap (toLowerStr d))

/-- Go `Rule.MatchStationID`. -/
def Rule.MatchStationID (r : Rule) (stationID : String) : Bool :=
  if ¬ r.HasStationID then true
  else if r.StationID = stationID then true
  else false

/-- Go `Rule.MatchWindow` with the global `CurrentTime` passed explicitly
as `now`: with no window set, true; an unparseable start time is a log +
`return false`; an unparseable window falls back to
`time.Hour * OneDay` (24h); finally skip iff
`startTime.Add(fetchWindow).Before(CurrentTime)`. -/
def Rule.MatchWindow (r : Rule) (now : Int) (ft : String) : Bool :=
  if ¬ r.HasWindow then true
  else
    match parseDatetime ft with
    | none => false
    | some startTime =>
      let fetchWindow :=
        match parseGoDuration r.Window with
        | some d => d
        | none => nsPerHour * OneDay
      if startTime + fetchWindow < now then false
      else true

/-- Go `Rule.matchPfm`: the decision plus the log lines it prints when
`suppressLogs` is false. -/
def Rule.matchPfm (r : Rule) (pfm : String) (suppressLogs : Bool) : Bool × List String :=
  if ¬ r.HasPfm then (true, [])
  else if strContains pfm r.Pfm then
    (true, if suppressLogs then [] else ["rule[" ++ r.Name ++ "] matched with pfm: " ++ pfm])
  else (false, [])

/-- Go `Rule.matchTitle`. -/
def Rule.matchTitle (r : Rule) (title : String) (suppressLogs : Bool) : Bool × List String :=
  if ¬ r.HasTitle then (true, [])
  else if strContains title r.Title then
    (true, if suppressLogs then [] else ["rule[" ++ r.Name ++ "] matched with title: " ++ title])
  else (false, [])

/-- Go `Rule.matchKeyword`: title, then pfm, then info, then desc, then the
first matching tag, each short-circuiting. -/
def Rule.matchKeyword (r : Rule) (p : Prog) (suppressLogs : Bool) : Bool × List String :=
  if ¬ r.HasKeyword then (true, [])
  else if strContains p.Title r.Keyword then
    (true, if suppressLogs then [] else ["rule[" ++ r.Name ++ "] matched with title: " ++ p.Title])
  else if strContains p.Pfm r.Keyword then
    (true, if suppressLogs then [] else ["rule[" ++ r.Name ++ "] matched with pfm: " ++ p.Pfm])
  else if strContains p.Info r.Keyword then
    (true, if suppressLogs then [] else ["rule[" ++ r.Name ++ "] matched with info: " ++ p.Info])
  else if strContains p.Desc r.Keyword then
    (true, if suppressLogs then [] else ["rule[" ++ r.Name ++ "] matched with desc: " ++ p.Desc])
  else
    match p.Tags.find? (fun tag => strContains tag r.Keyword) with
    | some tag => (true, if suppressLogs then [] else ["rule[" ++ r.Name ++ "] matched with tag: " ++ tag])
    | none => (false, [])

/-- Go `Rule.match` (named `matchInternal` because `match` is a Lean
keyword): window, then day-of-week, then station id, then the three
content predicates combined with short-circuiting `&&`. -/
def Rule.matchInternal (r : Rule) (now : Int) (stationID : String) (p : Prog)
    (suppressLogs : Bool) : Bool × List String :=
  if ¬ r.MatchWindow now p.Ft then (false, [])
  else if ¬ r.MatchDoW p.Ft then (false, [])
  else if ¬ r.MatchStationID stationID then (false, [])
  else if ¬ (r.matchPfm p.Pfm suppressLogs).1 then
    (false, (r.matchPfm p.Pfm suppressLogs).2)
  else if ¬ (r.matchTitle p.Title suppressLogs).1 then
    (false, (r.matchPfm p.Pfm suppressLogs).2 ++ (r.matchTitle p.Title suppressLogs).2)
  else
    ((r.matchKeyword p suppressLogs).1,
     (r.matchPfm p.Pfm suppressLogs).2 ++ (r.matchTitle p.Title suppressLogs).2
       ++ (r.matchKeyword p suppressLogs).2)

/-- Go `Rule.Match`: the logging variant's decision. -/
def Rule.Match (r : Rule) (now : Int) (stationID : String) (p : Prog) : Bool :=
  (r.matchInternal now stationID p false).1

/-- Go `Rule.MatchSilent`: the log-suppressing variant's decision. -/
def Rule.MatchSilent (r : Rule) (now : Int) (stationID : String) (p : Prog) : Bool :=
  (r.matchInternal now stationID p true).1

/-- Go `Rules.FindMatch`: first rule in configured order whose `Match`
holds. -/
def Rules.FindMatch (rs : List Rule) (now : Int) (stationID : String) (p : Prog) : Option Rule :=
  rs.find? (fun r => r.Match now stationID p)

/-- Go `Rules.FindMatchSilent`. -/
def Rules.FindMatchSilent (rs : List Rule) (now : Int) (stationID : String) (p : Prog) : Option Rule :=
  rs.find? (fun r => r.MatchSilent now stationID p)

/-- Go `Rules.HasMatch`. -/
def Rules.HasMatch (rs : List Rule) (now : Int) (stationID : String) (p : Prog) : Bool :=
  rs.any (fun r => r.Match now stationID p)

/-- Modelled from the spec: `Schedules.HasDuplicate` is declared outside
the provided sources; the spec fixes Schedules as a list "used purely for
duplicate suppression by `ID` equality", and the GUI caller removes
entries by comparing `s.ID == p.ID`. -/
def Schedules.HasDuplicate (ss : List Prog) (p : Prog) : Bool :=
  ss.any (fun s => s.ID = p.ID)

/-- Modelled from the spec: the `Asset` (Session) struct is declared
outside the provided sources; the fields here are the ones the provided
sources read or write (`NextFetchTime`, `Schedules`, `OutputFormat`,
`DownloadDir`, `MinimumOutputSize`, `Rules`), with `NextFetchTime` as
optional nanoseconds standing for the Go `*time.Time`. -/
structure Asset where
  NextFetchTime : Option Int
  Schedules : List Prog
  OutputFormat : String
  DownloadDir : String
  MinimumOutputSize : Int
  Rules : List Rule
deriving Repr, DecidableEq

/-- The filesystem as seen by the downloader: path to byte size of the
regular files that exist. -/
abbrev FS := List (String × Int)

/-- Size of the file at `path`, `none` when the path does not exist
(Go `os.Stat` error). -/
def FS.sizeOf? (fs : FS) (path : String) : Option Int :=
  (fs.find? (fun e => e.1 = path)).map (·.2)

/-- Does a file exist at `path`. -/
def FS.pathExists (fs : FS) (path : String) : Bool :=
  (FS.sizeOf? fs path).isSome

/-- Remove the file at `path` (Go `os.Remove`; removing an existing file
always succeeds in this model). -/
def FS.removeFile (fs : FS) (path : String) : FS :=
  fs.filter (fun e => e.1 ≠ path)

/-- Create or overwrite the file at `path` with `size` bytes. -/
def FS.insertFile (fs : FS) (path : String) (size : Int) : FS :=
  (path, size) :: FS.removeFile fs path

/-- Observable side effects of the downloader, tracked alongside the
filesystem map so the frame claims can speak about network requests,
directory creation and metadata writes. -/
inductive Effect
  | fsMkdir (path : String)
  | fsCreate (path : String)
  | fsRemove (path : String)
  | fsRename (src dest : String)
  | netRequest (what : String)
  | tagWrite (path : String)
deriving Repr, DecidableEq

/-- The external radigo `OutputConfig` (the spec's OutputDescriptor):
directory, base filename and target format. -/
structure OutputConfig where
  DirFullPath : String
  FileBaseName : String
  FileFormat : String
deriving Repr, DecidableEq

/-- radigo `OutputConfig.AbsPath`: `<dir>/<base>.<format>`. -/
def OutputConfig.AbsPath (o : OutputConfig) : String :=
  o.DirFullPath ++ "/" ++ o.FileBaseName ++ "." ++ o.FileFormat

/-- radigo `OutputConfig.IsExist` against the modelled filesystem. -/
def OutputConfig.IsExist (o : OutputConfig) (fs : FS) : Bool :=
  FS.pathExists fs o.AbsPath

/-- Go `getRadicronPath` in its absolute-`RADICRON_HOME` case (`home` is
the resolved base directory; the relative/working-directory cases differ
only in which absolute prefix is joined, and `filepath.Clean` is not
modelled because no claim depends on path normalisation). -/
def getRadicronPath (home sub : String) : String :=
  home ++ "/" ++ sub

/-- Go `newOutputConfigFromPath`. -/
def newOutputConfigFromPath (dirPath fileBaseName fileFormat : String) : OutputConfig :=
  { DirFullPath := dirPath, FileBaseName := fileBaseName, FileFormat := fileFormat }

/-- Go `newOutputConfig`: join the optional rule folder onto the download
dir under the radikron home. -/
def newOutputConfig (home fileBaseName fileFormat downloadDir folder : String) : OutputConfig :=
  let basePath := if folder ≠ "" then downloadDir ++ "/" ++ folder else downloadDir
  { DirFullPath := getRadicronPath home basePath
    FileBaseName := fileBaseName
    FileFormat := fileFormat }

/-- Go `moveFile` (rename with copy-then-delete fallback), with the one
environment interference the duplicate/placement claims are about made
explicit: `raceAppear = true` models another process creating `dest`
while the move is attempted, so the move fails and `dest` exists
afterwards (with an externally chosen content, modelled as size 0).
Without interference, moving an existing source succeeds (rename or the
equivalent copy-then-delete) and a missing source is an error. -/
def moveFile (fs : FS) (raceAppear : Bool) (source dest : String) :
    FS × List Effect × Bool :=
  if raceAppear then
    (FS.insertFile fs dest 0, [], false)
  else
    match FS.sizeOf? fs source with
    | some sz => (FS.insertFile (FS.removeFile fs source) dest sz, [Effect.fsRename source dest], true)
    | none => (fs, [], false)

/-- Result of the duplicate/placement helpers: Go `nil`, the sentinel
`errSkipAfterMove`, or a real error. -/
inductive HandleResult
  | nil
  | skipAfterMove
  | err (msg : String)
deriving Repr, DecidableEq

/-- State and outcome of a duplicate/placement helper call. -/
structure HDOut where
  fs : FS
  effects : List Effect
  emits : List String
  res : HandleResult
deriving Repr, DecidableEq

/-- Go `handleMoveFromDefaultFolder`, event-emitting version
(part_000 lines 619-650): if the target already exists, keep both files
and skip; if the move fails but the target turns out to exist, discard
the source and skip; a move failure with no target is a hard error; after
a successful move, skip via the sentinel. -/
def handleMoveFromDefaultFolderV1 (fs : FS) (raceAppear : Bool)
    (source targetPath : String) (output : OutputConfig) : HDOut :=
  if output.IsExist fs then
    { fs := fs, effects := [], emits := ["skip target already exists, keeping both files"],
      res := .nil }
  else
    let mv := moveFile fs raceAppear source targetPath
    if mv.2.2 then
      { fs := mv.1, effects := mv.2.1, emits := ["moved file"],
        res := if OutputConfig.IsExist output mv.1 then .skipAfterMove else .nil }
    else if FS.pathExists mv.1 targetPath then
      { fs := FS.removeFile mv.1 source, effects := mv.2.1 ++ [Effect.fsRemove source],
        emits := ["warning target file appeared during move, removing source"], res := .nil }
    else
      { fs := mv.1, effects := mv.2.1, emits := [],
        res := .err "failed to move file from default to configured folder" }

/-- Go `handleMoveFromDefaultFolder`, logging version (part_000 lines
1368-1396): identical except that a pre-existing target makes it remove
the source file instead of keeping both. -/
def handleMoveFromDefaultFolderV2 (fs : FS) (raceAppear : Bool)
    (source targetPath : String) (output : OutputConfig) : HDOut :=
  if output.IsExist fs then
    { fs := FS.removeFile fs source, effects := [Effect.fsRemove source],
      emits := ["skip target already exists, removing source"], res := .nil }
  else
    let mv := moveFile fs raceAppear source targetPath
    if mv.2.2 then
      { fs := mv.1, effects := mv.2.1, emits := ["moved file"],
        res := if OutputConfig.IsExist output mv.1 then .skipAfterMove else .nil }
    else if FS.pathExists mv.1 targetPath then
      { fs := FS.removeFile mv.1 source, effects := mv.2.1 ++ [Effect.fsRemove source],
        emits := ["warning target file appeared during move, removing source"], res := .nil }
    else
      { fs := mv.1, effects := mv.2.1, emits := [],
        res := .err "failed to move file from default to configured folder" }

/-- Go `collectConfiguredFolders`: the program's configured folder plus
every non-empty rule folder, deduplicated.  The Go map is modelled as an
insertion-ordered duplicate-free list (map iteration order is
unspecified in Go; no claim depends on the order). -/
def collectConfiguredFolders (configuredFolder : String) (rules : List Rule) : List String :=
  let init := if configuredFolder ≠ "" then [configuredFolder] else []
  rules.foldl
    (fun acc r => if r.Folder ≠ "" ∧ ¬ acc.contains r.Folder then acc ++ [r.Folder] else acc)
    init

/-- Go `checkConfiguredFoldersForDuplicate`: first configured folder
(target excluded) that already holds the file. -/
def checkConfiguredFoldersForDuplicate (fs : FS) (home : String)
    (configuredFolders : List String)
    (downloadDir fileBaseName fileFormat targetPath : String) : Option String :=
  configuredFolders.findSome? fun folder =>
    let configuredPath := getRadicronPath home (downloadDir ++ "/" ++ folder)
    let configuredOutput := newOutputConfigFromPath configuredPath fileBaseName fileFormat
    if configuredOutput.AbsPath = targetPath then none
    else if configuredOutput.IsExist fs then some configuredOutput.AbsPath
    else none

/-- Go `handleDuplicate`, event-emitting version (part_000 lines 653-695):
configured folders first (skip when found), then the default folder
(proceed when absent; move when a distinct configured folder exists;
otherwise skip-in-place). -/
def handleDuplicateV1 (fs : FS) (home : String) (raceAppear : Bool)
    (fileBaseName fileFormat downloadDir configuredFolder : String)
    (output : OutputConfig) (rules : List Rule) : HDOut :=
  let configuredFolders := collectConfiguredFolders configuredFolder rules
  let targetPath := output.AbsPath
  match checkConfiguredFoldersForDuplicate fs home configuredFolders downloadDir
      fileBaseName fileFormat targetPath with
  | some _ =>
    { fs := fs, effects := [], emits := ["skip already exists in configured folder"], res := .nil }
  | none =>
    let defaultPath := getRadicronPath home downloadDir
    let defaultOutput := newOutputConfigFromPath defaultPath fileBaseName fileFormat
    if ¬ defaultOutput.IsExist fs then
      { fs := fs, effects := [], emits := [], res := .nil }
    else if configuredFolder ≠ "" then
      handleMoveFromDefaultFolderV1 fs raceAppear defaultOutput.AbsPath output.AbsPath output
    else
      { fs := fs, effects := [], emits := ["skip already exists in default folder"], res := .nil }

/-- Go `handleDuplicate`, logging version (part_000 lines 1399-1437):
identical except that it checks the target path itself first and skips
immediately when the file is already there. -/
def handleDuplicateV2 (fs : FS) (home : String) (raceAppear : Bool)
    (fileBaseName fileFormat downloadDir configuredFolder : String)
    (output : OutputConfig) (rules : List Rule) : HDOut :=
  if output.IsExist fs then
    { fs := fs, effects := [], emits := ["skip already exists"], res := .nil }
  else
    let configuredFolders := collectConfiguredFolders configuredFolder rules
    let targetPath := output.AbsPath
    match checkConfiguredFoldersForDuplicate fs home configuredFolders downloadDir
        fileBaseName fileFormat targetPath with
    | some _ =>
      { fs := fs, effects := [], emits := ["skip already exists in configured folder"], res := .nil }
    | none =>
      let defaultPath := getRadicronPath home downloadDir
      let defaultOutput := newOutputConfigFromPath defaultPath fileBaseName fileFormat
      if ¬ defaultOutput.IsExist fs then
        { fs := fs, effects := [], emits := [], res := .nil }
      else if configuredFolder ≠ "" then
        handleMoveFromDefaultFolderV2 fs raceAppear defaultOutput.AbsPath output.AbsPath output
      else
        { fs := fs, effects := [], emits := ["skip already exists in default folder"], res := .nil }

/-- Modelled from the spec: `OutputDatetimeLayout` is declared outside the
provided sources; the spec's filesystem layout names files
`<YYYYMMDD-HHMM>_<stationID>_<title>.<ext>`, so formatting the parsed
start time reduces to reshaping the validated 14-digit `Ft` string. -/
def outputDatetime (ft : String) : String :=
  let cs := ft.toList
  String.mk (cs.take 8 ++ '-' :: (cs.drop 8).take 4)

/-- What Go `Download` returns: the two parse errors, the four `nil`
skip outcomes, a wrapped `handleDuplicate` error, the playlist fetch
failure, or `nil` with the background download task spawned. -/
inductive DownloadResult
  | errInvalidStart
  | errInvalidEnd
  | okSkippedFuture
  | okSkippedDuplicate
  | okSkippedExists
  | okSkippedAfterMove
  | errHandleDuplicate (msg : String)
  | errPlaylistUnavailable
  | okStarted (uri : String)
deriving Repr, DecidableEq

/-- Whether the Go function returned `err == nil`. -/
def DownloadResult.isNil : DownloadResult → Bool
  | .okSkippedFuture => true
  | .okSkippedDuplicate => true
  | .okSkippedExists => true
  | .okSkippedAfterMove => true
  | .okStarted _ => true
  | _ => false

/-- State and outcome of one `Download` call. -/
structure DLOut where
  asset : Asset
  fs : FS
  effects : List Effect
  result : DownloadResult
deriving Repr, DecidableEq

/-- Go `Download`, event-emitting version (part_000 lines 134-241), with
the ambient context made explicit: `home` is the resolved radikron home,
`now` the global `CurrentTime`, `raceAppear` the filesystem interference
passed down to `moveFile`, and `uriResult` the outcome of the
`timeshiftProgM3U8` network call (`none` = request failed).  In order:
parse `Ft` (error on failure); the future-program gate updating
`NextFetchTime`; the Schedules duplicate gate; output resolution and
`SetupDir`; the target-exists check; `handleDuplicate`; the playlist
fetch; then the background `downloadProgram` task is spawned
(`okStarted`). -/
def Download (home : String) (now : Int) (raceAppear : Bool) (uriResult : Option String)
    (asset : Asset) (fs : FS) (prog : Prog) : DLOut :=
  match parseDatetime prog.Ft with
  | none => { asset := asset, fs := fs, effects := [], result := .errInvalidStart }
  | some startTime =>
    if now < startTime then
      match parseDatetime prog.To with
      | none => { asset := asset, fs := fs, effects := [], result := .errInvalidEnd }
      | some nextEndTime =>
        let nft :=
          match asset.NextFetchTime with
          | none => some (nextEndTime + BufferMinutes * nsPerMinute)
          | some t => if nextEndTime < t then some (nextEndTime + BufferMinutes * nsPerMinute)
                      else some t
        { asset := { asset with NextFetchTime := nft }, fs := fs, effects := [],
          result := .okSkippedFuture }
    else if Schedules.HasDuplicate asset.Schedules prog then
      { asset := asset, fs := fs, effects := [], result := .okSkippedDuplicate }
    else
      let fileBaseName := outputDatetime prog.Ft ++ "_" ++ prog.StationID ++ "_" ++ prog.Title
      let output := newOutputConfig home fileBaseName asset.OutputFormat asset.DownloadDir
        prog.RuleFolder
      let setupEffects := [Effect.fsMkdir output.DirFullPath]
      if output.IsExist fs then
        { asset := asset, fs := fs, effects := setupEffects, result := .okSkippedExists }
      else
        let hd := handleDuplicateV1 fs home raceAppear fileBaseName asset.OutputFormat
          asset.DownloadDir prog.RuleFolder output asset.Rules
        match hd.res with
        | .skipAfterMove =>
          { asset := asset, fs := hd.fs, effects := setupEffects ++ hd.effects,
            result := .okSkippedAfterMove }
        | .err m =>
          { asset := asset, fs := hd.fs, effects := setupEffects ++ hd.effects,
            result := .errHandleDuplicate m }
        | .nil =>
          match uriResult with
          | none =>
            { asset := asset, fs := hd.fs,
              effects := setupEffects ++ hd.effects ++ [Effect.netRequest "playlist.m3u8"],
              result := .errPlaylistUnavailable }
          | some uri =>
            { asset := asset, fs := hd.fs,
              effects := setupEffects ++ hd.effects ++ [Effect.netRequest "playlist.m3u8"],
              result := .okStarted uri }

/-- Environment of one background `downloadProgram` task: the outcomes of
its network calls and external-tool invocations, the temporary directory
it is handed, the byte size the written output file ends up with, and
the wall-clock instant `time.Now()` returns inside
`validateAndCleanupOutputFile`. -/
structure DPEnv where
  chunklist : Option (List String)
  aacDir : String
  tmpDirOk : Bool
  segmentsOk : Bool
  concatOk : Bool
  outputSize : Int
  nowValidate : Int
deriving Repr, DecidableEq

/-- How one background download task ends. -/
inductive DPResult
  | failChunklist
  | failTmpDir
  | failSegments
  | failConcat
  | failWriteOutput
  | retryScheduled
  | failTag
  | savedOk
deriving Repr, DecidableEq

/-- State and outcome of one background download task. -/
structure DPOut where
  asset : Asset
  fs : FS
  effects : List Effect
  result : DPResult
deriving Repr, DecidableEq

/-- Go `writeOutputFile`: rename into place for the native AAC container,
or transcode directly to the final path for MP3; any other format is an
error.  Either way the final file appears with the byte size the
environment produced. -/
def writeOutputFile (fs : FS) (outputSize : Int) (output : OutputConfig) :
    FS × List Effect × Bool :=
  if output.FileFormat = "aac" then
    (FS.insertFile fs output.AbsPath outputSize, [Effect.fsRename "concated" output.AbsPath], true)
  else if output.FileFormat = "mp3" then
    (FS.insertFile fs output.AbsPath outputSize, [Effect.fsCreate output.AbsPath], true)
  else
    (fs, [], false)

/-- Result of `validateAndCleanupOutputFile`. -/
structure VCOut where
  asset : Asset
  fs : FS
  effects : List Effect
  shouldRetry : Bool
deriving Repr, DecidableEq

/-- Go `validateAndCleanupOutputFile` (part_000 lines 405-426): stat the
output; on stat failure report no retry; when the size is below
`MinimumOutputSize`, remove the file, set `NextFetchTime` to
`time.Now() + BufferMinutes` and report that a retry was scheduled. -/
def validateAndCleanupOutputFile (nowValidate : Int) (asset : Asset) (fs : FS)
    (output : OutputConfig) : VCOut :=
  match FS.sizeOf? fs output.AbsPath with
  | none => { asset := asset, fs := fs, effects := [], shouldRetry := false }
  | some size =>
    if size < asset.MinimumOutputSize then
      { asset := { asset with NextFetchTime := some (nowValidate + BufferMinutes * nsPerMinute) }
        fs := FS.removeFile fs output.AbsPath
        effects := [Effect.fsRemove output.AbsPath]
        shouldRetry := true }
    else
      { asset := asset, fs := fs, effects := [], shouldRetry := false }

/-- Go `downloadProgram`, event-emitting version (part_000 lines 327-380):
fetch the chunklist, create the temporary segment directory (removed on
every later exit path), bulk-download the segments, concatenate, write
the output file, validate its size (returning early when a retry was
scheduled), and only then write the ID3 tag. -/
def downloadProgram (asset : Asset) (fs : FS) (env : DPEnv) (output : OutputConfig) : DPOut :=
  match env.chunklist with
  | none =>
    { asset := asset, fs := fs, effects := [Effect.netRequest "chunklist"],
      result := .failChunklist }
  | some _ =>
    if ¬ env.tmpDirOk then
      { asset := asset, fs := fs, effects := [Effect.netRequest "chunklist"],
        result := .failTmpDir }
    else
      let mkEff := [Effect.netRequest "chunklist", Effect.fsMkdir env.aacDir]
      let clEff := [Effect.fsRemove env.aacDir]
      if ¬ env.segmentsOk then
        { asset := asset, fs := fs,
          effects := mkEff ++ [Effect.netRequest "segments"] ++ clEff, result := .failSegments }
      else
        let segEff := mkEff ++ [Effect.netRequest "segments"]
        if ¬ env.concatOk then
          { asset := asset, fs := fs, effects := segEff ++ clEff, result := .failConcat }
        else
          let wo := writeOutputFile fs env.outputSize output
          if ¬ wo.2.2 then
            { asset := asset, fs := wo.1, effects := segEff ++ wo.2.1 ++ clEff,
              result := .failWriteOutput }
          else
            let vc := validateAndCleanupOutputFile env.nowValidate asset wo.1 output
            if vc.shouldRetry then
              { asset := vc.asset, fs := vc.fs,
                effects := segEff ++ wo.2.1 ++ vc.effects ++ clEff, result := .retryScheduled }
            else
              { asset := vc.asset
                fs := vc.fs
                effects := segEff ++ wo.2.1 ++ vc.effects
                  ++ [Effect.tagWrite output.AbsPath] ++ clEff
                result := .savedOk }

/-- Go `setNextFetchTime` (cmd/radikron/main.go lines 76-82): the
24-hours-from-now fallback, applied only when nothing set
`NextFetchTime` during the iteration. -/
def setNextFetchTime (asset : Asset) (currentTime : Int) : Asset :=
  match asset.NextFetchTime with
  | none => { asset with NextFetchTime := some (currentTime + OneDay * nsPerHour) }
  | some _ => asset

/-- The two kinds of events that write `NextFetchTime` during one
scheduling-loop iteration: a future-dated program with parsed end time
`endT` (Download's time gate) and an undersized output detected at
wall-clock `atTime` (`validateAndCleanupOutputFile`). -/
inductive FetchEvent
  | futureProg (endT : Int)
  | undersized (atTime : Int)
deriving Repr, DecidableEq

/-- How one event updates `NextFetchTime`, exactly as the source does: the
future-program branch overwrites when the current value is unset or
strictly after the program's END time (not after the candidate), and the
undersized-output branch overwrites unconditionally. -/
def stepNextFetch (nft : Option Int) : FetchEvent → Option Int
  | .futureProg endT =>
    match nft with
    | none => some (endT + BufferMinutes * nsPerMinute)
    | some t => if endT < t then some (endT + BufferMinutes * nsPerMinute) else some t
  | .undersized a => some (a + BufferMinutes * nsPerMinute)

/-- The candidate wake time each event proposes. -/
def candidateTime : FetchEvent → Int
  | .futureProg endT => endT + BufferMinutes * nsPerMinute
  | .undersized a => a + BufferMinutes * nsPerMinute

/-- `NextFetchTime` at the end of one scheduling-loop iteration that
produced the given events in order, including the 24-hour fallback. -/
def iterationNextFetch (now : Int) (evs : List FetchEvent) : Int :=
  (evs.foldl stepNextFetch none).getD (now + OneDay * nsPerHour)

/-- Written from the spec's words (for the refinement claim): the content
predicate of §4.2 — performer, title and keyword each independently
optional and substring-matched, the keyword against title, performer,
info, description or any tag. -/
def specContentPred (r : Rule) (p : Prog) : Bool :=
  (r.Pfm = "" || strContains p.Pfm r.Pfm) &&
  (r.Title = "" || strContains p.Title r.Title) &&
  (r.Keyword = "" || strContains p.Title r.Keyword || strContains p.Pfm r.Keyword ||
    strContains p.Info r.Keyword || strContains p.Desc r.Keyword ||
    p.Tags.any (fun t => strContains t r.Keyword))

/-- Written from the spec's words (for the refinement claim): a rule is
satisfied when the window, day-of-week and station predicates and the
content predicate all hold. -/
def specRulePasses (r : Rule) (now : Int) (stationID : String) (p : Prog) : Bool :=
  r.MatchWindow now p.Ft && r.MatchDoW p.Ft && r.MatchStationID stationID &&
    specContentPred r p

theorem find?_ext {α : Type} (f g : α → Bool) (h : ∀ a, f a = g a) :
    ∀ l : List α, l.find? f = l.find? g := by
  intro l
  induction l with
  | nil => rfl
  | cons a l ih =>
    by_cases ha : f a = true
    · rw [List.find?_cons_of_pos _ ha, List.find?_cons_of_pos _ ((h a) ▸ ha)]
    · rw [List.find?_cons_of_neg _ ha, List.find?_cons_of_neg _ ((h a) ▸ ha), ih]

theorem matchPfm_fst (r : Rule) (pfm : String) (b : Bool) :
    (r.matchPfm pfm b).1 = (r.Pfm = "" || strContains pfm r.Pfm) := by
  unfold Rule.matchPfm Rule.HasPfm
  by_cases h : r.Pfm = "" <;> by_cases h2 : strContains pfm r.Pfm <;> simp [h, h2]

theorem matchTitle_fst (r : Rule) (title : String) (b : Bool) :
    (r.matchTitle title b).1 = (r.Title = "" || strContains title r.Title) := by
  unfold Rule.matchTitle Rule.HasTitle
  by_cases h : r.Title = "" <;> by_cases h2 : strContains title r.Title <;> simp [h, h2]

theorem find?_isSome_eq_any {α : Type} (f : α → Bool) (l : List α) :
    (l.find? f).isSome = l.any f := by
  induction l with
  | nil => rfl
  | cons a l ih =>
    by_cases ha : f a = true
    · rw [List.find?_cons_of_pos _ ha]; simp [ha]
    · rw [List.find?_cons_of_neg _ ha]; simp [ha, ih]

theorem matchKeyword_fst (r : Rule) (p : Prog) (b : Bool) :
    (r.matchKeyword p b).1 =
      (r.Keyword = "" || strContains p.Title r.Keyword || strContains p.Pfm r.Keyword ||
        strContains p.Info r.Keyword || strContains p.Desc r.Keyword ||
        p.Tags.any (fun t => strContains t r.Keyword)) := by
  unfold Rule.matchKeyword Rule.HasKeyword
  by_cases h : r.Keyword = ""
  · simp [h]
  · by_cases h1 : strContains p.Title r.Keyword
    · simp [h, h1]
    · by_cases h2 : strContains p.Pfm r.Keyword
      · simp [h, h1, h2]
      · by_cases h3 : strContains p.Info r.Keyword
        · simp [h, h1, h2, h3]
        · by_cases h4 : strContains p.Desc r.Keyword
          · simp [h, h1, h2, h3, h4]
          · simp only [h, h1, h2, h3, h4]
            rw [← find?_isSome_eq_any]
            cases hf : p.Tags.find? (fun t => strContains t r.Keyword) <;> simp [h, hf]

theorem matchInternal_fst (r : Rule) (now : Int) (sid : String) (p : Prog) (b : Bool) :
    (r.matchInternal now sid p b).1 = specRulePasses r now sid p := by
  unfold Rule.matchInternal specRulePasses specContentPred
  by_cases hw : r.MatchWindow now p.Ft
  · by_cases hd : r.MatchDoW p.Ft
    · by_cases hs : r.MatchStationID sid
      · by_cases hp : (r.matchPfm p.Pfm b).1
        · by_cases ht : (r.matchTitle p.Title b).1
          · simp only [hw, hd, hs, hp, ht, not_true, if_false, ite_false]
            simp only [matchPfm_fst r p.Pfm b] at hp
            simp only [matchTitle_fst r p.Title b] at ht
            simp [hp, ht, matchKeyword_fst]
          · simp only [hw, hd, hs, hp, ht, not_true, not_false_iff, if_true, ite_false]
            simp only [matchTitle_fst r p.Title b] at ht
            simp [ht]
        · simp only [hw, hd, hs, hp, not_true, not_false_iff, if_true, ite_false]
          simp only [matchPfm_fst r p.Pfm b] at hp
          simp [hp]
      · simp [hw, hd, hs]
    · simp [hw, hd]
  · simp [hw]

theorem matchSilent_eq_match (r : Rule) (now : Int) (sid : String) (p : Prog) :
    r.MatchSilent now sid p = r.Match now sid p := by
  unfold Rule.MatchSilent Rule.Match
  rw [matchInternal_fst, matchInternal_fst]

theorem matchWindow_false_match_false (r : Rule) (now : Int) (sid : String) (p : Prog)
    (h : r.MatchWindow now p.Ft = false) : r.Match now sid p = false := by
  unfold Rule.Match Rule.matchInternal
  simp [h]

theorem FS.sizeOf?_insert_self (fs : FS) (p : String) (s : Int) :
    FS.sizeOf? (FS.insertFile fs p s) p = some s := by
  unfold FS.sizeOf? FS.insertFile
  rw [List.find?_cons_of_pos _ (by simp)]
  rfl

theorem FS.sizeOf?_remove_self (fs : FS) (p : String) :
    FS.sizeOf? (FS.removeFile fs p) p = none := by
  unfold FS.sizeOf? FS.removeFile
  have h : (fs.filter (fun e => e.1 ≠ p)).find? (fun e => e.1 = p) = none := by
    rw [List.find?_eq_none]
    intro x hx
    rw [List.mem_filter] at hx
    simpa using hx.2
  rw [h]
  rfl

theorem FS.pathExists_insert_self (fs : FS) (p : String) (s : Int) :
    FS.pathExists (FS.insertFile fs p s) p = true := by
  unfold FS.pathExists
  rw [FS.sizeOf?_insert_self]
  rfl

theorem FS.pathExists_remove_self (fs : FS) (p : String) :
    FS.pathExists (FS.removeFile fs p) p = false := by
  unfold FS.pathExists
  rw [FS.sizeOf?_remove_self]
  rfl

theorem stepNextFetch_ne_none (acc : Option Int) (e : FetchEvent) :
    stepNextFetch acc e ≠ none := by
  cases e with
  | futureProg endT =>
    cases acc with
    | none => simp [stepNextFetch]
    | some t =>
      unfold stepNextFetch
      by_cases h : endT < t <;> simp [h]
  | undersized a => simp [stepNextFetch]

theorem foldl_stepNextFetch_ne_none (evs : List FetchEvent) (acc : Option Int)
    (h : acc ≠ none) : evs.foldl stepNextFetch acc ≠ none := by
  induction evs generalizing acc with
  | nil => simpa using h
  | cons e es ih =>
    rw [List.foldl_cons]
    exact ih _ (stepNextFetch_ne_none acc e)

theorem foldl_stepNextFetch_mem (evs : List FetchEvent) (acc : Option Int) (t : Int)
    (h : evs.foldl stepNextFetch acc = some t) :
    acc = some t ∨ t ∈ evs.map candidateTime := by
  induction evs generalizing acc with
  | nil => left; simpa using h
  | cons e es ih =>
    rw [List.foldl_cons] at h
    rcases ih (stepNextFetch acc e) h with hstep | hmem
    · cases e with
      | futureProg endT =>
        cases acc with
        | none =>
          right
          simp only [stepNextFetch] at hstep
          simp [List.map_cons, candidateTime, Option.some_inj.mp hstep]
        | some u =>
          simp only [stepNextFetch] at hstep
          by_cases hlt : endT < u
          · right
            rw [if_pos hlt] at hstep
            simp [List.map_cons, candidateTime, Option.some_inj.mp hstep]
          · left
            rw [if_neg hlt] at hstep
            rw [Option.some_inj.mp hstep]
      | undersized a =>
        right
        simp only [stepNextFetch] at hstep
        simp [List.map_cons, candidateTime, Option.some_inj.mp hstep]
    · right
      simp [List.map_cons, hmem]

/-- A rule with no structural and no content constraints. -/
def w3Rule : Rule :=
  { Name := "all", Title := "", DoW := [], Keyword := "", Pfm := "", StationID := "",
    Window := "", Folder := "" }

/-- A concrete program used by the rule witnesses. -/
def w3Prog : Prog :=
  { ID := "p1", StationID := "FMT", Title := "Morning Show", Pfm := "Host", Info := "",
    Desc := "", Tags := [], Ft := "20230605130000", To := "20230605140000",
    RuleName := "", RuleFolder := "" }

/-- C3: for every rule whose Title, Keyword and Pfm are all empty,
`Rule.Match` equals exactly the conjunction of the structural predicates
(window, day-of-week, station id) — an absent content predicate is
vacuously true, never vacuously false. -/
theorem rule_empty_content_is_vacuously_true (r : Rule) (now : Int) (sid : String) (p : Prog)
    (ht : r.Title = "") (hk : r.Keyword = "") (hp : r.Pfm = "") :
    r.Match now sid p =
      (r.MatchWindow now p.Ft && r.MatchDoW p.Ft && r.MatchStationID sid) := by
  rw [Rule.Match, matchInternal_fst]
  unfold specRulePasses specContentPred
  simp [ht, hk, hp]

/-- Witness for C3: a concrete rule with no content predicate matches a
concrete program exactly when its structural predicates do (and here they
do, so the rule matches). -/
theorem rule_empty_content_is_vacuously_true_witness :
    w3Rule.Title = "" ∧ w3Rule.Keyword = "" ∧ w3Rule.Pfm = "" ∧
    Rule.Match w3Rule 0 "FMT" w3Prog =
      (Rule.MatchWindow w3Rule 0 w3Prog.Ft && Rule.MatchDoW w3Rule w3Prog.Ft &&
        Rule.MatchStationID w3Rule "FMT") ∧
    Rule.Match w3Rule 0 "FMT" w3Prog = true :=
  ⟨rfl, rfl, rfl,
   rule_empty_content_is_vacuously_true w3Rule 0 "FMT" w3Prog rfl rfl rfl,
   by decide⟩

/-- The spec's window-exclusion example: a rule with a 1-hour window. -/
def w4Rule : Rule :=
  { Name := "win", Title := "", DoW := [], Keyword := "", Pfm := "", StationID := "",
    Window := "1h", Folder := "" }

/-- A rule whose window string is not a parseable duration. -/
def w4BadRule : Rule :=
  { Name := "badwin", Title := "", DoW := [], Keyword := "", Pfm := "", StationID := "",
    Window := "abc", Folder := "" }

/-- The parsed start time of `w3Prog`. -/
def w4St : Int := (parseDatetime "20230605130000").getD 0

/-- A current time two hours past the start of `w3Prog`. -/
def w4Now : Int := w4St + 2 * nsPerHour

/-- C4: for a rule with a non-empty window, a program whose parsed start
time plus the parsed window duration is before the current time never
matches, whatever the other predicates; and when the window string fails
to parse as a duration, `MatchWindow` substitutes a 24-hour window
instead of failing the rule. -/
theorem windowed_rule_excludes_and_defaults (r : Rule) (now st : Int) (sid : String) (p : Prog)
    (hw : r.Window ≠ "") (hft : parseDatetime p.Ft = some st) :
    (∀ d, parseGoDuration r.Window = some d → st + d < now →
      r.Match now sid p = false) ∧
    (parseGoDuration r.Window = none → ¬ (st + nsPerHour * OneDay < now) →
      r.MatchWindow now p.Ft = true) := by
  constructor
  · intro d hd hlt
    apply matchWindow_false_match_false
    unfold Rule.MatchWindow
    simp [Rule.HasWindow, hw, hft, hd, hlt]
  · intro hd hnlt
    unfold Rule.MatchWindow
    simp [Rule.HasWindow, hw, hft, hd, hnlt]

/-- Witness for C4 (the spec's own example): window `"1h"`, program start
two hours before now, so the windowed rule matches nothing; and the
unparseable window `"abc"` falls back to 24 hours and lets the same
program through. -/
theorem windowed_rule_excludes_and_defaults_witness :
    (w4Rule.Window ≠ "" ∧ parseDatetime w3Prog.Ft = some w4St ∧
      ((∀ d, parseGoDuration w4Rule.Window = some d → w4St + d < w4Now →
        Rule.Match w4Rule w4Now "FMT" w3Prog = false) ∧
       (parseGoDuration w4Rule.Window = none → ¬ (w4St + nsPerHour * OneDay < w4Now) →
        Rule.MatchWindow w4Rule w4Now w3Prog.Ft = true))) ∧
    Rule.Match w4Rule w4Now "FMT" w3Prog = false ∧
    Rule.MatchWindow w4BadRule w4Now w3Prog.Ft = true :=
  ⟨⟨by decide, by decide,
    windowed_rule_excludes_and_defaults w4Rule w4Now w4St "FMT" w3Prog (by decide) (by decide)⟩,
   by decide, by decide⟩

/-- C10: a rule with a non-empty window fails outright on a program whose
start-time string does not parse in the fixed layout. -/
theorem windowed_rule_fails_on_unparseable_start (r : Rule) (now : Int) (sid : String)
    (p : Prog) (hw : r.Window ≠ "") (hft : parseDatetime p.Ft = none) :
    r.Match now sid p = false := by
  apply matchWindow_false_match_false
  unfold Rule.MatchWindow
  simp [Rule.HasWindow, hw, hft]

/-- A program whose start-time string is not in the fixed layout. -/
def w10Prog : Prog :=
  { ID := "p10", StationID := "FMT", Title := "Morning Show", Pfm := "", Info := "",
    Desc := "", Tags := [], Ft := "invalid-time-format", To := "20230605140000",
    RuleName := "", RuleFolder := "" }

/-- Witness for C10: the windowed rule `w4Rule` rejects the program with
the malformed start time. -/
theorem windowed_rule_fails_on_unparseable_start_witness :
    w4Rule.Window ≠ "" ∧ parseDatetime w10Prog.Ft = none ∧
    Rule.Match w4Rule 0 "FMT" w10Prog = false :=
  ⟨by decide, by decide,
   windowed_rule_fails_on_unparseable_start w4Rule 0 "FMT" w10Prog (by decide) (by decide)⟩

/-- C9: suppressing the observability side effects never changes the
matching decision — `FindMatchSilent` returns exactly the same rule as
`FindMatch` — and both return the first rule in configured order whose
window, day-of-week, station and content predicates all hold (the
spec-side predicate `specRulePasses`). -/
theorem findMatchSilent_eq_findMatch_first (rs : List Rule) (now : Int) (sid : String)
    (p : Prog) :
    Rules.FindMatchSilent rs now sid p = Rules.FindMatch rs now sid p ∧
    Rules.FindMatch rs now sid p = rs.find? (fun r => specRulePasses r now sid p) := by
  constructor
  · unfold Rules.FindMatchSilent Rules.FindMatch
    exact find?_ext _ _ (fun r => matchSilent_eq_match r now sid p) rs
  · unfold Rules.FindMatch
    exact find?_ext _ _ (fun r => by rw [Rule.Match, matchInternal_fst]) rs

/-- 2023-06-05 12:00 local, the fixed current time of the Download
fixtures. -/
def c1Now : Int := (parseDatetime "20230605120000").getD 0

/-- Parsed start time (13:00) of the future-program fixture. -/
def c1StartT : Int := (parseDatetime "20230605130000").getD 0

/-- Parsed end time (14:00) of the future-program fixture. -/
def c1EndT : Int := (parseDatetime "20230605140000").getD 0

/-- A pre-existing `NextFetchTime` (13:30) earlier than the fixture
program's end time. -/
def c1KeptT : Int := (parseDatetime "20230605133000").getD 0

/-- A future program (13:00-14:00, one hour after `c1Now`). -/
def c1Prog : Prog :=
  { ID := "future-1", StationID := "FMT", Title := "Test Program", Pfm := "", Info := "",
    Desc := "", Tags := [], Ft := "20230605130000", To := "20230605140000",
    RuleName := "", RuleFolder := "" }

/-- A session whose `NextFetchTime` is already set to 13:30, earlier than
`c1Prog`'s end. -/
def c1Asset : Asset :=
  { NextFetchTime := some c1KeptT, Schedules := [], OutputFormat := "aac",
    DownloadDir := "downloads", MinimumOutputSize := 1024, Rules := [] }

/-- Counterexample to C1: for this future program (start 13:00 after now
12:00), `Download` stops with no effect, but the session's
`NextFetchTime` stays at its earlier pre-existing value 13:30, which is
strictly below the program's end time 14:00 — so the claimed
`NextFetchTime ≥ To` fails. -/
theorem download_future_nextFetch_below_end_cex :
    (Download "/radiko" c1Now false none c1Asset [] c1Prog).result =
      DownloadResult.okSkippedFuture ∧
    (Download "/radiko" c1Now false none c1Asset [] c1Prog).effects = [] ∧
    parseDatetime c1Prog.Ft = some c1StartT ∧ c1Now < c1StartT ∧
    parseDatetime c1Prog.To = some c1EndT ∧
    (Download "/radiko" c1Now false none c1Asset [] c1Prog).asset.NextFetchTime =
      some c1KeptT ∧
    c1KeptT < c1EndT := by decide

/-- C1 amended: for every program whose parsed start time is strictly
after now (and whose end time parses), `Download` stops before fetching
or writing anything — no filesystem change, no effect, Schedules
untouched — and afterwards `NextFetchTime` is set to a time that is
either at least the program's end time or an unchanged earlier
pre-existing value (the source keeps a `NextFetchTime` that is not after
the program's end). -/
theorem download_future_no_file_sets_nextFetch (home : String) (now : Int)
    (raceAppear : Bool) (uriResult : Option String) (asset : Asset) (fs : FS) (prog : Prog)
    (startT endT : Int) (hst : parseDatetime prog.Ft = some startT) (hfut : now < startT)
    (hend : parseDatetime prog.To = some endT) :
    (Download home now raceAppear uriResult asset fs prog).result =
      DownloadResult.okSkippedFuture ∧
    (Download home now raceAppear uriResult asset fs prog).fs = fs ∧
    (Download home now raceAppear uriResult asset fs prog).effects = [] ∧
    (Download home now raceAppear uriResult asset fs prog).asset.Schedules =
      asset.Schedules ∧
    ∃ t, (Download home now raceAppear uriResult asset fs prog).asset.NextFetchTime =
      some t ∧ (endT ≤ t ∨ asset.NextFetchTime = some t) := by
  have hbuf : (0 : Int) ≤ BufferMinutes * nsPerMinute := by decide
  have hD : Download home now raceAppear uriResult asset fs prog =
      { asset := { asset with NextFetchTime :=
          match asset.NextFetchTime with
          | none => some (endT + BufferMinutes * nsPerMinute)
          | some t => if endT < t then some (endT + BufferMinutes * nsPerMinute) else some t },
        fs := fs, effects := [], result := .okSkippedFuture } := by
    unfold Download
    rw [hst, hend]
    simp [hfut]
  rw [hD]
  refine ⟨rfl, rfl, rfl, rfl, ?_⟩
  cases hnft : asset.NextFetchTime with
  | none =>
    exact ⟨endT + BufferMinutes * nsPerMinute, rfl, Or.inl (by omega)⟩
  | some t =>
    by_cases hlt : endT < t
    · exact ⟨endT + BufferMinutes * nsPerMinute, by simp [hlt], Or.inl (by omega)⟩
    · exact ⟨t, by simp [hlt], Or.inr rfl⟩

/-- A session with no `NextFetchTime` yet. -/
def w1Asset : Asset :=
  { NextFetchTime := none, Schedules := [], OutputFormat := "aac",
    DownloadDir := "downloads", MinimumOutputSize := 1024, Rules := [] }

/-- Witness for the amended C1: on a fresh session the future program
sets `NextFetchTime` to at least its end time and nothing else happens. -/
theorem download_future_no_file_sets_nextFetch_witness :
    (Download "/radiko" c1Now false none w1Asset [] c1Prog).result =
      DownloadResult.okSkippedFuture ∧
    (Download "/radiko" c1Now false none w1Asset [] c1Prog).fs = [] ∧
    (Download "/radiko" c1Now false none w1Asset [] c1Prog).effects = [] ∧
    (Download "/radiko" c1Now false none w1Asset [] c1Prog).asset.Schedules =
      w1Asset.Schedules ∧
    ∃ t, (Download "/radiko" c1Now false none w1Asset [] c1Prog).asset.NextFetchTime =
      some t ∧ (c1EndT ≤ t ∨ w1Asset.NextFetchTime = some t) :=
  download_future_no_file_sets_nextFetch "/radiko" c1Now false none w1Asset [] c1Prog
    c1StartT c1EndT (by decide) (by decide) (by decide)

/-- A program whose start-time string does not parse, already claimed in
Schedules. -/
def c7Prog : Prog :=
  { ID := "dup-1", StationID := "FMT", Title := "Test Program", Pfm := "", Info := "",
    Desc := "", Tags := [], Ft := "invalid-time-format", To := "20230605140000",
    RuleName := "", RuleFolder := "" }

/-- A session whose Schedules already contain `c7Prog`. -/
def c7Asset : Asset :=
  { NextFetchTime := none, Schedules := [c7Prog], OutputFormat := "aac",
    DownloadDir := "downloads", MinimumOutputSize := 1024, Rules := [] }

/-- Counterexample to C7: this program's ID is already in Schedules, yet
`Download` does not return nil — the start-time parse error at the top of
the function returns an error before the duplicate gate is reached (it
still performs no network request and no write). -/
theorem download_duplicate_unparseable_start_errors_cex :
    Schedules.HasDuplicate c7Asset.Schedules c7Prog = true ∧
    (Download "/radiko" 0 false none c7Asset [] c7Prog).result =
      DownloadResult.errInvalidStart ∧
    DownloadResult.isNil (Download "/radiko" 0 false none c7Asset [] c7Prog).result =
      false ∧
    (Download "/radiko" 0 false none c7Asset [] c7Prog).effects = [] ∧
    (Download "/radiko" 0 false none c7Asset [] c7Prog).fs = [] := by decide

/-- C7 amended: for every program whose ID is already in Schedules and
whose parsed start time is not in the future, `Download` returns nil at
the duplicate gate, before output-directory setup, the playlist request
and the segment fetch: no network request, no filesystem write, and the
session (Schedules included) and the filesystem are returned unchanged.
(A duplicate whose start time fails to parse returns a parse error
instead of nil, and a future-dated duplicate is handled by the time gate
first.) -/
theorem download_duplicate_gate_no_effects (home : String) (now : Int) (raceAppear : Bool)
    (uriResult : Option String) (asset : Asset) (fs : FS) (prog : Prog) (startT : Int)
    (hdup : Schedules.HasDuplicate asset.Schedules prog = true)
    (hst : parseDatetime prog.Ft = some startT) (hpast : ¬ now < startT) :
    Download home now raceAppear uriResult asset fs prog =
      { asset := asset, fs := fs, effects := [], result := .okSkippedDuplicate } := by
  unfold Download
  rw [hst]
  simp [hpast, hdup]

/-- A past program (10:00-11:00) already claimed in Schedules. -/
def w7Prog : Prog :=
  { ID := "dup-2", StationID := "FMT", Title := "Test Program", Pfm := "", Info := "",
    Desc := "", Tags := [], Ft := "20230605100000", To := "20230605110000",
    RuleName := "", RuleFolder := "" }

/-- A session whose Schedules already contain `w7Prog`. -/
def w7Asset : Asset :=
  { NextFetchTime := none, Schedules := [w7Prog], OutputFormat := "aac",
    DownloadDir := "downloads", MinimumOutputSize := 1024, Rules := [] }

/-- Witness for the amended C7: the concrete past duplicate is skipped
silently with session and filesystem unchanged. -/
theorem download_duplicate_gate_no_effects_witness :
    Download "/radiko" c1Now false none w7Asset [] w7Prog =
      { asset := w7Asset, fs := [], effects := [],
        result := DownloadResult.okSkippedDuplicate } :=
  download_duplicate_gate_no_effects "/radiko" c1Now false none w7Asset [] w7Prog
    ((parseDatetime "20230605100000").getD 0) (by decide) (by decide) (by decide)

/-- C5: whenever the finished output file's size is below the configured
`MinimumOutputSize`, the background download task deletes the file, sets
`NextFetchTime` to now plus the fixed buffer, never writes an ID3 tag
onto the undersized file, and ends as `retryScheduled` — a
not-yet-successful outcome distinct from every hard-failure outcome. -/
theorem undersized_output_deleted_and_retried (asset : Asset) (fs : FS) (env : DPEnv)
    (output : OutputConfig)
    (hfmt : output.FileFormat = "aac" ∨ output.FileFormat = "mp3")
    (hck : env.chunklist.isSome = true) (htmp : env.tmpDirOk = true)
    (hseg : env.segmentsOk = true) (hcat : env.concatOk = true)
    (hsize : env.outputSize < asset.MinimumOutputSize) :
    FS.pathExists (downloadProgram asset fs env output).fs output.AbsPath = false ∧
    (downloadProgram asset fs env output).asset.NextFetchTime =
      some (env.nowValidate + BufferMinutes * nsPerMinute) ∧
    (∀ pth, Effect.tagWrite pth ∉ (downloadProgram asset fs env output).effects) ∧
    (downloadProgram asset fs env output).result = DPResult.retryScheduled := by
  obtain ⟨l, hl⟩ := Option.isSome_iff_exists.mp hck
  have hD : downloadProgram asset fs env output =
      { asset := { asset with NextFetchTime := some (env.nowValidate + BufferMinutes * nsPerMinute) }
        fs := FS.removeFile (FS.insertFile fs output.AbsPath env.outputSize) output.AbsPath
        effects := [Effect.netRequest "chunklist", Effect.fsMkdir env.aacDir, Effect.netRequest "segments"] ++ (if output.FileFormat = "aac" then [Effect.fsRename "concated" output.AbsPath] else [Effect.fsCreate output.AbsPath]) ++ [Effect.fsRemove output.AbsPath] ++ [Effect.fsRemove env.aacDir]
        result := .retryScheduled } := by
    unfold downloadProgram
    rw [hl]
    rcases hfmt with hfmt | hfmt
    · simp [htmp, hseg, hcat, writeOutputFile, hfmt, validateAndCleanupOutputFile,
        FS.sizeOf?_insert_self, hsize]
    · have hne : output.FileFormat ≠ "aac" := by rw [hfmt]; decide
      simp [htmp, hseg, hcat, writeOutputFile, hfmt, hne, validateAndCleanupOutputFile,
        FS.sizeOf?_insert_self, hsize]
  rw [hD]
  refine ⟨FS.pathExists_remove_self _ _, rfl, ?_, rfl⟩
  intro pth
  by_cases hfa : output.FileFormat = "aac" <;> simp [hfa]

/-- Output descriptor of the undersized-retry witness. -/
def w5Output : OutputConfig :=
  { DirFullPath := "/radiko/downloads", FileBaseName := "20230605-1300_FMT_Test",
    FileFormat := "aac" }

/-- Environment producing a 10 KB output file. -/
def w5Env : DPEnv :=
  { chunklist := some ["seg1.aac"], aacDir := "/radiko/tmp/aac1", tmpDirOk := true,
    segmentsOk := true, concatOk := true, outputSize := 10240, nowValidate := 0 }

/-- A session with a 1 MB minimum output size. -/
def w5Asset : Asset :=
  { NextFetchTime := none, Schedules := [], OutputFormat := "aac",
    DownloadDir := "downloads", MinimumOutputSize := 1048576, Rules := [] }

/-- Witness for C5 (the spec's own example): a 10 KB output against a 1 MB
minimum is deleted, a retry is scheduled at now plus the buffer, and no
tag is written. -/
theorem undersized_output_deleted_and_retried_witness :
    FS.pathExists (downloadProgram w5Asset [] w5Env w5Output).fs w5Output.AbsPath = false ∧
    (downloadProgram w5Asset [] w5Env w5Output).asset.NextFetchTime =
      some (w5Env.nowValidate + BufferMinutes * nsPerMinute) ∧
    (∀ pth, Effect.tagWrite pth ∉ (downloadProgram w5Asset [] w5Env w5Output).effects) ∧
    (downloadProgram w5Asset [] w5Env w5Output).result = DPResult.retryScheduled :=
  undersized_output_deleted_and_retried w5Asset [] w5Env w5Output (Or.inl rfl)
    (by decide) (by decide) (by decide) (by decide) (by decide)

/-- Output descriptor of the duplicate-move fixtures. -/
def c6Output : OutputConfig :=
  { DirFullPath := "/radiko/downloads/citypop", FileBaseName := "f", FileFormat := "aac" }

/-- The duplicate file sitting in the default folder. -/
def c6Source : String := "/radiko/downloads/f.aac"

/-- A filesystem where both the move target and the duplicate source
already exist. -/
def c6FS : FS := [(c6Output.AbsPath, 5), (c6Source, 7)]

/-- Counterexample to C6: when the target path has appeared before the
move is attempted, the event-emitting `handleMoveFromDefaultFolder`
reports success but keeps both files — the duplicate source is NOT
discarded, contradicting the claim that a target appearing before or
during the move always discards the source. -/
theorem move_target_preexists_keeps_source_cex :
    FS.pathExists c6FS c6Output.AbsPath = true ∧
    (handleMoveFromDefaultFolderV1 c6FS false c6Source c6Output.AbsPath c6Output).res =
      HandleResult.nil ∧
    (handleMoveFromDefaultFolderV1 c6FS false c6Source c6Output.AbsPath c6Output).fs =
      c6FS ∧
    FS.pathExists
      (handleMoveFromDefaultFolderV1 c6FS false c6Source c6Output.AbsPath c6Output).fs
      c6Source = true := by decide

/-- C6 amended: a target appearing DURING the move makes both versions of
`handleMoveFromDefaultFolder` discard the duplicate source and report
success, never an error; a target that already exists BEFORE the move is
attempted also reports success in both versions, but only the logging
version discards the source — the event-emitting version keeps both
files. -/
theorem move_race_discards_duplicate_amended (fs : FS) (raceAppear : Bool)
    (source targetPath : String) (output : OutputConfig) :
    (output.IsExist fs = false →
      ((handleMoveFromDefaultFolderV1 fs true source targetPath output).res =
         HandleResult.nil ∧
       FS.pathExists (handleMoveFromDefaultFolderV1 fs true source targetPath output).fs
         source = false ∧
       (handleMoveFromDefaultFolderV2 fs true source targetPath output).res =
         HandleResult.nil ∧
       FS.pathExists (handleMoveFromDefaultFolderV2 fs true source targetPath output).fs
         source = false)) ∧
    (output.IsExist fs = true →
      ((handleMoveFromDefaultFolderV1 fs raceAppear source targetPath output).res =
         HandleResult.nil ∧
       (handleMoveFromDefaultFolderV1 fs raceAppear source targetPath output).fs = fs ∧
       (handleMoveFromDefaultFolderV2 fs raceAppear source targetPath output).res =
         HandleResult.nil ∧
       FS.pathExists
         (handleMoveFromDefaultFolderV2 fs raceAppear source targetPath output).fs
         source = false)) := by
  constructor
  · intro h
    unfold handleMoveFromDefaultFolderV1 handleMoveFromDefaultFolderV2
    simp [h, moveFile, FS.pathExists_insert_self, FS.pathExists_remove_self]
  · intro h
    unfold handleMoveFromDefaultFolderV1 handleMoveFromDefaultFolderV2
    simp [h, FS.pathExists_remove_self]

/-- Output descriptor of the mid-move race witness. -/
def w6Output : OutputConfig :=
  { DirFullPath := "/radiko/downloads/citypop", FileBaseName := "g", FileFormat := "aac" }

/-- Path of the duplicate in the default folder for the race witness. -/
def w6SrcPath : String := "/radiko/downloads/g.aac"

/-- A filesystem holding only the duplicate source (target absent). -/
def w6FS : FS := [(w6SrcPath, 9)]

/-- Witness for the amended C6: with the target absent at entry and
appearing mid-move, both versions discard the source and report
success. -/
theorem move_race_discards_duplicate_amended_witness :
    (handleMoveFromDefaultFolderV1 w6FS true w6SrcPath w6Output.AbsPath w6Output).res =
      HandleResult.nil ∧
    FS.pathExists
      (handleMoveFromDefaultFolderV1 w6FS true w6SrcPath w6Output.AbsPath w6Output).fs
      w6SrcPath = false ∧
    (handleMoveFromDefaultFolderV2 w6FS true w6SrcPath w6Output.AbsPath w6Output).res =
      HandleResult.nil ∧
    FS.pathExists
      (handleMoveFromDefaultFolderV2 w6FS true w6SrcPath w6Output.AbsPath w6Output).fs
      w6SrcPath = false :=
  (move_race_discards_duplicate_amended w6FS false w6SrcPath w6Output.AbsPath w6Output).1
    (by decide)

/-- C8: the duplicate/placement resolution is idempotent — on a
filesystem the first call did not change (and with no concurrent
interference), calling either version of `handleDuplicate` again with
the same arguments yields exactly the same outcome, including the
skip-or-proceed emissions and the error result. -/
theorem handleDuplicate_idempotent (fs : FS)
    (home fileBaseName fileFormat downloadDir configuredFolder : String)
    (output : OutputConfig) (rules : List Rule)
    (h1 : (handleDuplicateV1 fs home false fileBaseName fileFormat downloadDir
      configuredFolder output rules).fs = fs)
    (h2 : (handleDuplicateV2 fs home false fileBaseName fileFormat downloadDir
      configuredFolder output rules).fs = fs) :
    handleDuplicateV1 (handleDuplicateV1 fs home false fileBaseName fileFormat downloadDir
        configuredFolder output rules).fs home false fileBaseName fileFormat downloadDir
        configuredFolder output rules =
      handleDuplicateV1 fs home false fileBaseName fileFormat downloadDir configuredFolder
        output rules ∧
    handleDuplicateV2 (handleDuplicateV2 fs home false fileBaseName fileFormat downloadDir
        configuredFolder output rules).fs home false fileBaseName fileFormat downloadDir
        configuredFolder output rules =
      handleDuplicateV2 fs home false fileBaseName fileFormat downloadDir configuredFolder
        output rules := by
  rw [h1, h2]
  exact ⟨rfl, rfl⟩

/-- Output descriptor of the idempotence witness. -/
def w8Output : OutputConfig := newOutputConfig "/radiko" "h" "aac" "downloads" "citypop"

/-- Witness for C8: on an empty filesystem the first call changes nothing
and the second call returns the same outcome. -/
theorem handleDuplicate_idempotent_witness :
    handleDuplicateV1 (handleDuplicateV1 [] "/radiko" false "h" "aac" "downloads" "citypop"
        w8Output []).fs "/radiko" false "h" "aac" "downloads" "citypop" w8Output [] =
      handleDuplicateV1 [] "/radiko" false "h" "aac" "downloads" "citypop" w8Output [] ∧
    handleDuplicateV2 (handleDuplicateV2 [] "/radiko" false "h" "aac" "downloads" "citypop"
        w8Output []).fs "/radiko" false "h" "aac" "downloads" "citypop" w8Output [] =
      handleDuplicateV2 [] "/radiko" false "h" "aac" "downloads" "citypop" w8Output [] :=
  handleDuplicate_idempotent [] "/radiko" "h" "aac" "downloads" "citypop" w8Output []
    (by decide) (by decide)

/-- Counterexample to C2: with two future programs whose end times lie
within the fixed buffer of each other, the second (later) candidate
overwrites the earlier `NextFetchTime`, and the iteration ends with a
`NextFetchTime` strictly later than the earliest candidate — so the
final value is not the minimum of the candidates and a later candidate
did overwrite an earlier one. -/
theorem nextFetch_not_earliest_candidate_cex :
    stepNextFetch none (FetchEvent.futureProg 0) = some (BufferMinutes * nsPerMinute) ∧
    stepNextFetch (some (BufferMinutes * nsPerMinute)) (FetchEvent.futureProg 1) =
      some (1 + BufferMinutes * nsPerMinute) ∧
    iterationNextFetch 0 [FetchEvent.futureProg 0, FetchEvent.futureProg 1] =
      1 + BufferMinutes * nsPerMinute ∧
    candidateTime (FetchEvent.futureProg 0) ∈
      ([FetchEvent.futureProg 0, FetchEvent.futureProg 1].map candidateTime) ∧
    candidateTime (FetchEvent.futureProg 0) <
      iterationNextFetch 0 [FetchEvent.futureProg 0, FetchEvent.futureProg 1] := by decide

/-- C2 amended: at the end of every scheduling-loop iteration
`NextFetchTime` is set; when no candidate event fired it equals now plus
24 hours, and when candidates fired it equals one of the candidate times
(hence is at least the earliest); but it need not be the earliest — a
provisional update replaces the current value exactly when that value is
strictly after the new program's end time, and a retry update replaces
it unconditionally. -/
theorem iterationNextFetch_amended (now : Int) (evs : List FetchEvent) (h : evs ≠ []) :
    iterationNextFetch now [] = now + OneDay * nsPerHour ∧
    ∃ t, evs.foldl stepNextFetch none = some t ∧ t ∈ evs.map candidateTime ∧
      iterationNextFetch now evs = t := by
  constructor
  · rfl
  · obtain ⟨t, ht⟩ : ∃ t, evs.foldl stepNextFetch none = some t := by
      cases evs with
      | nil => exact absurd rfl h
      | cons e es =>
        rw [List.foldl_cons]
        exact Option.ne_none_iff_exists'.mp
          (foldl_stepNextFetch_ne_none es _ (stepNextFetch_ne_none none e))
    refine ⟨t, ht, ?_, ?_⟩
    · rcases foldl_stepNextFetch_mem evs none t ht with hacc | hmem
      · exact absurd hacc (by simp)
      · exact hmem
    · unfold iterationNextFetch
      rw [ht]
      rfl

/-- Witness for the amended C2: one undersized-output event makes the
iteration end exactly at that event's candidate time. -/
theorem iterationNextFetch_amended_witness :
    iterationNextFetch 0 [] = 0 + OneDay * nsPerHour ∧
    ∃ t, [FetchEvent.undersized 5].foldl stepNextFetch none = some t ∧
      t ∈ [FetchEvent.undersized 5].map candidateTime ∧
      iterationNextFetch 0 [FetchEvent.undersized 5] = t :=
  iterationNextFetch_amended 0 [FetchEvent.undersized 5] (by decide)

end Radikron
